import Mathlib

/-!
Verification of the mention-reconciliation and dedup-ledger subsystem of the
Daily-Brief-Agent repository, shallowly embedded in Lean.

Ledger side (`src/utils/mention_tracker.py`): the persisted tracker file is
modelled by `FileState` (missing, unreadable/corrupt, or a valid record).
Timestamps appear only as opaque ISO strings in the ledger metadata.  The
JSON list of processed ids is modelled as a `Finset String`, matching the
source, which converts the stored list to a Python `set` on load and back on
save (the stored order is never observed).  A fallible file write is modelled
by a `writeOk : Bool` parameter; the `Except String Unit` component of a
result is what the function lets escape to its caller (an uncaught Python
exception would be `Except.error`).
-/

namespace DailyBrief

/-- A mention dictionary as consumed by the tracker: the
`mention_story_gid` key (absent or `None` is `none`) plus the rest of the
payload, which the tracker never inspects. -/
structure TrackedMention where
  mention_story_gid : Option String
  payload : String
deriving DecidableEq

/-- The tracker data returned by `load_processed_mentions`. -/
structure ProcessedMentionRecord where
  processedIds : Finset String
  lastUpdated : Option String
  totalProcessed : Nat
deriving DecidableEq

/-- State of the persisted tracker file `data/processed_mentions.json`. -/
inductive FileState where
  | missing
  | corrupt (err : String)
  | valid (ids : Finset String) (lastUpdated : Option String) (total : Nat)
deriving DecidableEq

/-- The empty record returned when no usable persisted state exists. -/
def emptyRecord : ProcessedMentionRecord :=
  { processedIds := ∅, lastUpdated := none, totalProcessed := 0 }

/-- The `open` + `json.load` + field conversion inside the `try` block of
`load_processed_mentions`; an unreadable or unparseable file raises. -/
def readTrackerFile : FileState → Except String (Finset String × Option String × Nat)
  | .missing => .error "No such file"
  | .corrupt e => .error e
  | .valid ids lu total => .ok (ids, lu, total)

/-- `load_processed_mentions`: returns the empty record when the file does
not exist, otherwise reads it, catching any exception and falling back to
the empty record. -/
def load_processed_mentions (fs : FileState) : ProcessedMentionRecord :=
  match fs with
  | .missing => emptyRecord
  | _ =>
    match readTrackerFile fs with
    | .error _ => emptyRecord
    | .ok (ids, lu, total) =>
      { processedIds := ids, lastUpdated := lu, totalProcessed := total }

/-- `save_processed_mentions` (callers pass no `existing_data`, so it loads
the current file): merges the new ids into the loaded set and rewrites the
whole file with the merged set, a fresh timestamp and the merged set's size.
The `try`/`except` around the write catches a failing write (modelled by
`writeOk = false`), logging it; nothing propagates, and the file keeps its
previous contents. -/
def save_processed_mentions (writeOk : Bool) (nowIso : String)
    (fs : FileState) (mentionIds : Finset String) :
    FileState × Except String Unit :=
  let existing := load_processed_mentions fs
  let allIds := existing.processedIds ∪ mentionIds
  if writeOk then
    (.valid allIds (some nowIso) allIds.card, .ok ())
  else
    (fs, .ok ())

/-- The set comprehension in `mark_mentions_as_processed`: the
`mention_story_gid` of every mention that has one, with Python truthiness
dropping both a missing/`None` gid and the empty string. -/
def mentionIdsOf (mentions : List TrackedMention) : Finset String :=
  (mentions.filterMap fun m =>
    match m.mention_story_gid with
    | some g => if g = "" then none else some g
    | none => none).toFinset

/-- `mark_mentions_as_processed`: collects the truthy gids and saves them
when the collected set is non-empty, otherwise does nothing. -/
def mark_mentions_as_processed (writeOk : Bool) (nowIso : String)
    (fs : FileState) (mentions : List TrackedMention) :
    FileState × Except String Unit :=
  let ids := mentionIdsOf mentions
  if ids = ∅ then (fs, .ok ()) else save_processed_mentions writeOk nowIso fs ids

/-- The retention test inside `filter_new_mentions`: keep a mention when its
`mention_story_gid` is truthy and not among the processed ids. -/
def isNewMention (processed : Finset String) (m : TrackedMention) : Bool :=
  match m.mention_story_gid with
  | none => false
  | some g => if g = "" then false else if g ∈ processed then false else true

/-- `filter_new_mentions`: loads the tracker and keeps the mentions whose
gid is truthy and not already processed, in input order. -/
def filter_new_mentions (fs : FileState) (mentions : List TrackedMention) :
    List TrackedMention :=
  let tracker := load_processed_mentions fs
  mentions.filter (isNewMention tracker.processedIds)

/-- A sequence of `mark_mentions_as_processed` calls (write outcome,
timestamp, batch), threaded through the persisted file state. -/
def applyMarks (fs : FileState)
    (calls : List (Bool × String × List TrackedMention)) : FileState :=
  calls.foldl (fun s c => (mark_mentions_as_processed c.1 c.2.1 s c.2.2).1) fs

theorem mem_mentionIdsOf (X : List TrackedMention) (g : String) :
    g ∈ mentionIdsOf X ↔
      ∃ m ∈ X, m.mention_story_gid = some g ∧ g ≠ "" := by
  simp only [mentionIdsOf, List.mem_toFinset, List.mem_filterMap]
  constructor
  · rintro ⟨m, hm, hf⟩
    rcases hg : m.mention_story_gid with _ | g'
    · rw [hg] at hf
      exact Option.noConfusion (show (none : Option String) = some g from hf)
    · rw [hg] at hf
      have hf' : (if g' = "" then none else some g') = some g := hf
      by_cases he : g' = ""
      · rw [if_pos he] at hf'
        exact Option.noConfusion hf'
      · rw [if_neg he] at hf'
        obtain rfl : g' = g := Option.some.inj hf'
        exact ⟨m, hm, hg, he⟩
  · rintro ⟨m, hm, hg, hne⟩
    refine ⟨m, hm, ?_⟩
    rw [hg]
    show (if g = "" then none else some g) = some g
    rw [if_neg hne]

/-!
Reconciler side (`src/integrations/asana_client.py`).  Timestamps are
embedded as `Int` (the embedding is invariant under the monotone conversion
from ISO datetimes).  `Comment.createdAt = none` models a present
`created_at` string that `datetime.fromisoformat` rejects — that raises
`ValueError`, which the `except (ValueError, TypeError)` handler catches,
skipping the comment.  A missing or `None` `created_at` is a different
path: `None.replace` raises `AttributeError`, which that handler does NOT
catch, so the exception escapes `get_unanswered_mentions`; `Comment`
timelines carry no missing timestamps, and that uncaught-exception path is
modelled separately by `RawComment`/`scanUserE` below.  A comment's
`html_text` is embedded as
the list of anchor elements BeautifulSoup extracts from it, each with its
`data-asana-type` attribute, optional `data-asana-gid` attribute and inner
text.  The two collaborator calls are embedded as data: each `Task` carries
the comment list `get_stories_for_task` returns for it (an empty list also
covers a failed fetch), and `get_user_gid_by_name` is a `resolve` function
parameter.
-/

/-- An `<a>` element of a comment's `html_text`. -/
structure Link where
  atype : String
  agid : Option String
  text : String
deriving DecidableEq

/-- A comment dictionary as built by `get_stories_for_task`. -/
structure Comment where
  gid : String
  createdAt : Option Int
  authorName : String
  authorGid : Option String
  text : String
  htmlLinks : List Link
deriving DecidableEq

/-- A task dictionary as consumed by `get_unanswered_mentions`, carrying the
comments its collaborator fetch returns. -/
structure Task where
  gid : String
  name : Option String
  permalinkUrl : Option String
  projectName : Option String
  notes : Option String
  comments : List Comment
deriving DecidableEq

/-- An unanswered-mention dictionary as appended by
`get_unanswered_mentions`.  `hoursSinceMention` keeps the raw time
difference (the source divides by 3600 and rounds only for display). -/
structure MentionEvent where
  taskGid : String
  taskName : String
  taskUrl : String
  projectName : String
  taskDescription : String
  mentionStoryGid : String
  mentionedUserName : String
  mentionedUserGid : String
  authorName : String
  authorGid : Option String
  commentText : String
  mentionedAt : Int
  hoursSinceMention : Int
  recentComments : List Comment
deriving DecidableEq

/-- `user_name = link.get_text().lstrip('@')`. -/
def lstripAt (s : String) : String :=
  String.mk (s.toList.dropWhile fun ch => ch = '@')

/-- `extract_mentions_from_html`: the anchors whose `data-asana-type` is
`user` and whose `data-asana-gid` is truthy, as (gid, display name) pairs in
document order. -/
def extract_mentions_from_html (links : List Link) : List (String × String) :=
  links.filterMap fun l =>
    if l.atype = "user" then
      match l.agid with
      | some g => if g = "" then none else some (g, lstripAt l.text)
      | none => none
    else none

/-- The inner `for mention in mentions` check: the extracted mentions of a
comment that point at the monitored user's gid. -/
def mentionHits (u : String) (c : Comment) : List (String × String) :=
  (extract_mentions_from_html c.htmlLinks).filter fun p => p.1 == u

/-- The per-user walk over a task's comment timeline: collects
`mentions_to_user` (one entry per matching extracted mention, in timeline
order, paired with the comment's parsed timestamp) and `user_last_reply_at`
(the running maximum timestamp over the monitored user's own comments).
A comment whose timestamp string fails to parse (the caught `ValueError`)
is skipped outright; a missing timestamp cannot occur in a `Comment`
timeline (see `scanUserE` for that uncaught-exception path). -/
def scanUser (u : String) : List Comment → List (Comment × Int) × Option Int
  | [] => ([], none)
  | c :: rest =>
    let s := scanUser u rest
    match c.createdAt with
    | none => s
    | some t =>
      if c.authorGid = some u then
        (s.1, some (match s.2 with | none => t | some r => max t r))
      else
        ((mentionHits u c).map (fun _ => (c, t)) ++ s.1, s.2)

/-- `has_replied`: the monitored user posted strictly after the mention. -/
def answeredAfter (lr : Option Int) (t : Int) : Bool :=
  match lr with
  | none => false
  | some r => decide (t < r)

/-- `comments[-5:]`. -/
def lastN (n : Nat) (l : List Comment) : List Comment :=
  l.drop (l.length - n)

/-- The dictionary appended to `unanswered` for a retained mention. -/
def mkEvent (now : Int) (task : Task) (u uname : String)
    (c : Comment) (t : Int) : MentionEvent :=
  { taskGid := task.gid
    taskName := task.name.getD "Unknown Task"
    taskUrl := task.permalinkUrl.getD ("https://app.asana.com/0/0/" ++ task.gid)
    projectName := task.projectName.getD "No Project"
    taskDescription := task.notes.getD ""
    mentionStoryGid := c.gid
    mentionedUserName := uname
    mentionedUserGid := u
    authorName := c.authorName
    authorGid := c.authorGid
    commentText := c.text
    mentionedAt := t
    hoursSinceMention := now - t
    recentComments := lastN 5 task.comments }

/-- The body of the per-task, per-monitored-user loop of
`get_unanswered_mentions`: walk the timeline, then retain a candidate
mention when it is within the lookback window (`mention_time < since`
skips it) and the user has not replied after it. -/
def processUser (now since : Int) (task : Task) (u uname : String) :
    List MentionEvent :=
  let s := scanUser u task.comments
  s.1.filterMap fun p =>
    if p.2 < since then none
    else if answeredAfter s.2 p.2 then none
    else some (mkEvent now task u uname p.1 p.2)

/-- Python-dict insertion for `monitored_user_gids[gid] = name`: updates in
place when the key exists, otherwise appends. -/
def dictInsert (d : List (String × String)) (k v : String) :
    List (String × String) :=
  match d with
  | [] => [(k, v)]
  | (k', v') :: rest =>
    if k' = k then (k, v) :: rest else (k', v') :: dictInsert rest k v

/-- `get_unanswered_mentions`: resolve the monitored names (a falsy gid
drops the name), return `[]` when none resolve, otherwise scan every
recently modified task (tasks with no comments are skipped) once per
monitored user. -/
def get_unanswered_mentions (resolve : String → Option String)
    (names : List String) (tasks : List Task) (now lookbackHours : Int) :
    List MentionEvent :=
  let monitored := names.foldl
    (fun d n =>
      match resolve n with
      | some g => if g = "" then d else dictInsert d g n
      | none => d) []
  if monitored.isEmpty then []
  else
    let since := now - lookbackHours
    tasks.flatMap fun task =>
      if task.comments.isEmpty then []
      else monitored.flatMap fun gn => processUser now since task gn.1 gn.2

theorem isNewMention_iff (P : Finset String) (m : TrackedMention) :
    isNewMention P m = true ↔
      ∃ g, m.mention_story_gid = some g ∧ g ≠ "" ∧ g ∉ P := by
  obtain ⟨gid, payload⟩ := m
  cases gid with
  | none =>
    show false = true ↔ _
    simp
  | some g =>
    show (if g = "" then false else if g ∈ P then false else true) = true ↔ _
    by_cases he : g = ""
    · simp [he]
    · by_cases hp : g ∈ P
      · simp [he, hp]
      · simp [he, hp]

theorem mark_state_of_ids_ne_empty (nowIso : String) (fs : FileState)
    (X : List TrackedMention) (h : mentionIdsOf X ≠ ∅) :
    (mark_mentions_as_processed true nowIso fs X).1 =
      .valid ((load_processed_mentions fs).processedIds ∪ mentionIdsOf X)
        (some nowIso)
        ((load_processed_mentions fs).processedIds ∪ mentionIdsOf X).card := by
  show (if mentionIdsOf X = ∅ then (fs, Except.ok ())
    else save_processed_mentions true nowIso fs (mentionIdsOf X)).1 = _
  rw [if_neg h]
  rfl

/-- Claim C4: `load_processed_mentions` on a missing file, and on any
unreadable or corrupt file, returns the empty record (empty processed set,
no timestamp, zero count); the exception raised while reading is caught, so
nothing escapes the function. -/
theorem c4_load_resilient :
    load_processed_mentions .missing = emptyRecord ∧
    ∀ e, load_processed_mentions (.corrupt e) = emptyRecord :=
  ⟨rfl, fun _ => rfl⟩

/-- Claim C3 fails on the code: with a failing file write,
`save_processed_mentions` still returns normally (`Except.ok`), because the
source wraps the write in `try`/`except` and only logs the error — nothing
is propagated to the caller. -/
theorem c3_counterexample :
    (save_processed_mentions false "2025-01-01T00:00:00" FileState.missing
      {"m1"}).2 = Except.ok () := rfl

/-- Claim C3 amended: a failing persist during `mark_mentions_as_processed`
is caught and logged, not propagated — the call returns normally and the
persisted file keeps its previous contents. -/
theorem c3_write_failure_swallowed (nowIso : String) (fs : FileState)
    (mentions : List TrackedMention) :
    mark_mentions_as_processed false nowIso fs mentions =
      (fs, Except.ok ()) := by
  show (if mentionIdsOf mentions = ∅ then (fs, Except.ok ())
    else save_processed_mentions false nowIso fs (mentionIdsOf mentions)) =
      (fs, Except.ok ())
  by_cases h : mentionIdsOf mentions = ∅
  · rw [if_pos h]
  · rw [if_neg h]
    rfl

theorem load_mark_subset (w : Bool) (nowIso : String) (fs : FileState)
    (X : List TrackedMention) :
    (load_processed_mentions fs).processedIds ⊆
      (load_processed_mentions
        (mark_mentions_as_processed w nowIso fs X).1).processedIds := by
  by_cases h : mentionIdsOf X = ∅
  · show (load_processed_mentions fs).processedIds ⊆
      (load_processed_mentions
        (if mentionIdsOf X = ∅ then (fs, Except.ok ())
          else save_processed_mentions w nowIso fs (mentionIdsOf X)).1).processedIds
    rw [if_pos h]
  · show (load_processed_mentions fs).processedIds ⊆
      (load_processed_mentions
        (if mentionIdsOf X = ∅ then (fs, Except.ok ())
          else save_processed_mentions w nowIso fs (mentionIdsOf X)).1).processedIds
    rw [if_neg h]
    cases w with
    | false => exact Finset.Subset.refl _
    | true => exact Finset.subset_union_left

/-- Claim C5: the ledger is append-only — across any sequence of
`mark_mentions_as_processed` calls (with any write outcomes and batches),
the persisted identifier set only ever grows: the set before the sequence
is a subset of the set after it, and its size is non-decreasing.  No ledger
operation deletes identifiers (`clear_old_processed_mentions` is a no-op
and `filter_new_mentions`/`load_processed_mentions` never write). -/
theorem c5_append_only (fs : FileState)
    (calls : List (Bool × String × List TrackedMention)) :
    (load_processed_mentions fs).processedIds ⊆
      (load_processed_mentions (applyMarks fs calls)).processedIds ∧
    (load_processed_mentions fs).processedIds.card ≤
      (load_processed_mentions (applyMarks fs calls)).processedIds.card := by
  have hsub : ∀ (cs : List (Bool × String × List TrackedMention))
      (s : FileState),
      (load_processed_mentions s).processedIds ⊆
        (load_processed_mentions (applyMarks s cs)).processedIds := by
    intro cs
    induction cs with
    | nil => intro s; exact Finset.Subset.refl _
    | cons c rest ih =>
      intro s
      have h1 := load_mark_subset c.1 c.2.1 s c.2.2
      have h2 := ih (mark_mentions_as_processed c.1 c.2.1 s c.2.2).1
      exact Finset.Subset.trans h1 h2
  exact ⟨hsub calls fs, Finset.card_le_card (hsub calls fs)⟩

/-- Claim C8: filtering is idempotent — with a fixed ledger state and no
intervening `mark_mentions_as_processed`, running `filter_new_mentions`
on its own output changes nothing. -/
theorem c8_filter_idempotent (fs : FileState) (X : List TrackedMention) :
    filter_new_mentions fs (filter_new_mentions fs X) =
      filter_new_mentions fs X := by
  show List.filter _ (List.filter _ X) = List.filter _ X
  rw [List.filter_filter]
  simp only [Bool.and_self]

/-- Claim C9 fails on the code: a mention whose `mention_story_gid` is the
empty string is dropped by `filter_new_mentions` (Python truthiness), even
though that identifier is absent from the (here empty) ledger — so the
output is not exactly the subset with unprocessed identifiers. -/
theorem c9_counterexample :
    filter_new_mentions FileState.missing
      [{ mention_story_gid := some "", payload := "x" }] = [] ∧
    "" ∉ (load_processed_mentions FileState.missing).processedIds := by
  decide

/-- Claim C9 amended: `filter_new_mentions` returns exactly the input
events that carry a truthy (present, non-empty) identifier absent from the
currently loaded record, as a sublist of the input (order preserved); it
takes the persisted state read-only and returns no new state. -/
theorem c9_filter_exact (fs : FileState) (X : List TrackedMention) :
    (filter_new_mentions fs X).Sublist X ∧
    ∀ m, m ∈ filter_new_mentions fs X ↔
      m ∈ X ∧ ∃ g, m.mention_story_gid = some g ∧ g ≠ "" ∧
        g ∉ (load_processed_mentions fs).processedIds := by
  constructor
  · exact List.filter_sublist X
  · intro m
    show m ∈ List.filter _ X ↔ _
    rw [List.mem_filter, isNewMention_iff]

/-- Claim C2: marking a batch as processed and then filtering the same
batch against the resulting ledger state yields the empty list — recorded
identifiers never reappear as new (events with a falsy identifier are
dropped by the filter regardless). -/
theorem c2_roundtrip (nowIso : String) (fs : FileState)
    (X : List TrackedMention) (h : X ≠ []) :
    filter_new_mentions
      (mark_mentions_as_processed true nowIso fs X).1 X = [] := by
  show List.filter _ X = []
  rw [List.filter_eq_nil_iff]
  intro m hm
  rw [isNewMention_iff]
  rintro ⟨g, hg, hne, hnotin⟩
  apply hnotin
  have hgid : g ∈ mentionIdsOf X := (mem_mentionIdsOf X g).mpr ⟨m, hm, hg, hne⟩
  have hne' : mentionIdsOf X ≠ ∅ := by
    intro hh
    rw [hh] at hgid
    exact absurd hgid (Finset.not_mem_empty g)
  rw [mark_state_of_ids_ne_empty nowIso fs X hne']
  exact Finset.mem_union_right _ hgid

theorem c2_witness :
    filter_new_mentions
      (mark_mentions_as_processed true "t0" FileState.missing
        [{ mention_story_gid := some "m1", payload := "a" }]).1
      [{ mention_story_gid := some "m1", payload := "a" }] = [] :=
  c2_roundtrip "t0" FileState.missing
    [{ mention_story_gid := some "m1", payload := "a" }] (by decide)

/-!
Concrete inputs for the scenario claims: the directory resolves "Bob" to
gid "bob"; Alice mentions Bob in decorated form.
-/

/-- Directory lookup used by the scenarios. -/
def resolveBob : String → Option String :=
  fun n => if n = "Bob" then some "bob" else none

/-- A decorated user reference to Bob. -/
def linkBob : Link := { atype := "user", agid := some "bob", text := "@Bob" }

/-- C1 of the scenario: Alice mentions Bob at t = 0. -/
def cAlice1 : Comment :=
  { gid := "c1", createdAt := some 0, authorName := "Alice",
    authorGid := some "alice", text := "hi @Bob", htmlLinks := [linkBob] }

/-- C2 of the scenario: Bob replies (no mention) at t = 5. -/
def cBob2 : Comment :=
  { gid := "c2", createdAt := some 5, authorName := "Bob",
    authorGid := some "bob", text := "on it", htmlLinks := [] }

/-- C3 of the scenario: Alice mentions Bob again at t = 10. -/
def cAlice3 : Comment :=
  { gid := "c3", createdAt := some 10, authorName := "Alice",
    authorGid := some "alice", text := "ping @Bob", htmlLinks := [linkBob] }

/-- The scenario work item with all three comments. -/
def taskW : Task :=
  { gid := "W", name := some "W task", permalinkUrl := none,
    projectName := none, notes := none,
    comments := [cAlice1, cBob2, cAlice3] }

/-- The scenario work item without Bob's reply. -/
def taskWnoReply : Task :=
  { gid := "W", name := some "W task", permalinkUrl := none,
    projectName := none, notes := none,
    comments := [cAlice1, cAlice3] }

/-- A comment whose decorated form references Bob twice. -/
def cDup : Comment :=
  { gid := "s1", createdAt := some 0, authorName := "Alice",
    authorGid := some "alice", text := "hey @Bob @Bob",
    htmlLinks := [linkBob, linkBob] }

/-- A work item holding only the doubly-mentioning comment. -/
def taskDup : Task :=
  { gid := "T1", name := some "Dup", permalinkUrl := none,
    projectName := none, notes := none, comments := [cDup] }

/-- Claim C7: on the scenario timeline [C1 Alice mentions Bob at 0, C2 Bob
replies at 5, C3 Alice mentions Bob at 10] with lookback 24 and now 12,
`get_unanswered_mentions` returns exactly one event, for C3 (Bob's reply at
5 answers C1); with C2 absent it returns exactly two events, for C1 and C3. -/
theorem c7_scenario :
    ((get_unanswered_mentions resolveBob ["Bob"] [taskW] 12 24).map fun e =>
        (e.mentionStoryGid, e.mentionedUserGid)) = [("c3", "bob")] ∧
    ((get_unanswered_mentions resolveBob ["Bob"] [taskWnoReply] 12 24).map fun e =>
        (e.mentionStoryGid, e.mentionedUserGid)) =
      [("c1", "bob"), ("c3", "bob")] := by
  decide

/-- The `created_at` value of a fetched story, before parsing: absent or
`None` (the API omitted it), a present string `datetime.fromisoformat`
rejects, or a present string parsing to timestamp `t`. -/
inductive CreatedAt where
  | missing
  | unparseable
  | parsed (t : Int)
deriving DecidableEq

/-- A comment dictionary whose `created_at` may also be missing/`None`
(`get_stories_for_task` stores `story.get('created_at')` unvalidated). -/
structure RawComment where
  gid : String
  createdAt : CreatedAt
  authorName : String
  authorGid : Option String
  text : String
  htmlLinks : List Link
deriving DecidableEq

/-- The extracted mentions of a raw comment pointing at the monitored
user's gid. -/
def mentionHitsRaw (u : String) (c : RawComment) : List (String × String) :=
  (extract_mentions_from_html c.htmlLinks).filter fun p => p.1 == u

/-- The per-user walk with the timestamp parse modelled exactly: a missing
or `None` `created_at` makes `comment['created_at'].replace('Z', '+00:00')`
raise `AttributeError`, which `except (ValueError, TypeError)` does not
catch — the walk (and with it the whole `get_unanswered_mentions` call,
which has no other handler) aborts with that exception; an unparseable
string raises `ValueError`, which is caught, and only that comment is
skipped. -/
def scanUserE (u : String) :
    List RawComment → Except String (List (RawComment × Int) × Option Int)
  | [] => .ok ([], none)
  | c :: rest =>
    match c.createdAt with
    | .missing => .error "AttributeError"
    | .unparseable => scanUserE u rest
    | .parsed t =>
      match scanUserE u rest with
      | .error e => .error e
      | .ok s =>
        if c.authorGid = some u then
          .ok (s.1, some (match s.2 with | none => t | some r => max t r))
        else
          .ok ((mentionHitsRaw u c).map (fun _ => (c, t)) ++ s.1, s.2)

/-- A raw comment by Alice mentioning Bob at t = 0. -/
def rawAlice1 : RawComment :=
  { gid := "c1", createdAt := .parsed 0, authorName := "Alice",
    authorGid := some "alice", text := "hi @Bob", htmlLinks := [linkBob] }

/-- A raw comment whose `created_at` string does not parse. -/
def rawBad : RawComment :=
  { gid := "bad", createdAt := .unparseable, authorName := "Bob",
    authorGid := some "bob", text := "late note", htmlLinks := [] }

/-- A raw comment whose `created_at` is missing/`None`. -/
def rawMissing : RawComment :=
  { gid := "nostamp", createdAt := .missing, authorName := "Bob",
    authorGid := some "bob", text := "untimed", htmlLinks := [] }

/-- Claim C10 fails on the code for the missing-timestamp half: a comment
whose `created_at` is missing/`None` is not skipped — the walk aborts with
the uncaught `AttributeError`, so walking a timeline with such a comment is
not the same as walking the timeline without it. -/
theorem c10_counterexample :
    scanUserE "bob" (rawMissing :: [rawAlice1]) =
      Except.error "AttributeError" ∧
    scanUserE "bob" (rawMissing :: [rawAlice1]) ≠
      scanUserE "bob" [rawAlice1] :=
  ⟨rfl, fun h => Except.noConfusion h⟩

/-- Claim C10 amended: a comment whose `created_at` string is present but
cannot be parsed (the caught `ValueError`) is skipped entirely, wherever it
sits — the walk's candidates and `last_reply_at` are those of the timeline
without it, for every monitored identity; but a comment whose `created_at`
is missing/`None` is not skipped: the walk aborts with the uncaught
`AttributeError`, which escapes `get_unanswered_mentions`. -/
theorem c10_amended (u : String) (c : RawComment) (l₁ l₂ : List RawComment) :
    (c.createdAt = .unparseable →
      scanUserE u (l₁ ++ c :: l₂) = scanUserE u (l₁ ++ l₂)) ∧
    (c.createdAt = .missing →
      scanUserE u (l₁ ++ c :: l₂) = Except.error "AttributeError") := by
  constructor
  · intro h
    induction l₁ with
    | nil =>
      show scanUserE u (c :: l₂) = scanUserE u l₂
      simp only [scanUserE, h]
    | cons d rest ih =>
      show scanUserE u (d :: (rest ++ c :: l₂)) =
        scanUserE u (d :: (rest ++ l₂))
      simp only [scanUserE, ih]
  · intro h
    induction l₁ with
    | nil =>
      show scanUserE u (c :: l₂) = Except.error "AttributeError"
      simp only [scanUserE, h]
    | cons d rest ih =>
      show scanUserE u (d :: (rest ++ c :: l₂)) =
        Except.error "AttributeError"
      cases hd : d.createdAt with
      | missing => simp [scanUserE, hd]
      | unparseable => simp [scanUserE, hd, ih]
      | parsed t => simp [scanUserE, hd, ih]

theorem c10_witness :
    scanUserE "bob" ([rawAlice1] ++ rawBad :: []) =
      scanUserE "bob" ([rawAlice1] ++ []) ∧
    scanUserE "bob" ([rawAlice1] ++ rawMissing :: []) =
      Except.error "AttributeError" :=
  ⟨(c10_amended "bob" rawBad [rawAlice1] []).1 rfl,
   (c10_amended "bob" rawMissing [rawAlice1] []).2 rfl⟩

/-- Claim C1: a candidate mention (an entry of the per-user walk's
`mentions_to_user`, carrying timestamp `t`) appears in the reconciler's
output for that work item and monitored identity if and only if `t` is
within the lookback window (`since ≤ t`) and the identity's
`last_reply_at` is undefined or at most `t`.  In particular a reply
strictly after `t` excludes the mention, and a reply at or before `t` does
not suppress it. -/
theorem c1_candidate_retention (u uname : String) (now since : Int)
    (task : Task) (c : Comment) (t : Int)
    (hc : (c, t) ∈ (scanUser u task.comments).1) :
    mkEvent now task u uname c t ∈ processUser now since task u uname ↔
      (since ≤ t ∧
        ((scanUser u task.comments).2 = none ∨
          ∃ r, (scanUser u task.comments).2 = some r ∧ r ≤ t)) := by
  show mkEvent now task u uname c t ∈
      ((scanUser u task.comments).1.filterMap fun p =>
        if p.2 < since then none
        else if answeredAfter (scanUser u task.comments).2 p.2 then none
        else some (mkEvent now task u uname p.1 p.2)) ↔ _
  rw [List.mem_filterMap]
  constructor
  · rintro ⟨⟨c', t'⟩, hmem, hf⟩
    by_cases h1 : t' < since
    · rw [if_pos h1] at hf
      exact Option.noConfusion hf
    · rw [if_neg h1] at hf
      by_cases h2 : answeredAfter (scanUser u task.comments).2 t' = true
      · rw [if_pos h2] at hf
        exact Option.noConfusion hf
      · rw [if_neg h2] at hf
        have ht : t' = t :=
          congrArg MentionEvent.mentionedAt (Option.some.inj hf)
        subst ht
        refine ⟨le_of_not_lt h1, ?_⟩
        cases hlr : (scanUser u task.comments).2 with
        | none => exact Or.inl rfl
        | some r =>
          rw [hlr] at h2
          refine Or.inr ⟨r, rfl, ?_⟩
          have : ¬(t' < r) := by
            intro hlt
            exact h2 (by show decide (t' < r) = true; exact decide_eq_true hlt)
          exact le_of_not_lt this
  · rintro ⟨h1, h2⟩
    refine ⟨(c, t), hc, ?_⟩
    rw [if_neg (not_lt.mpr h1)]
    have hfalse : answeredAfter (scanUser u task.comments).2 t = false := by
      cases h2 with
      | inl h => rw [h]; rfl
      | inr h =>
        obtain ⟨r, hr, hle⟩ := h
        rw [hr]
        show decide (t < r) = false
        exact decide_eq_false (not_lt.mpr hle)
    rw [hfalse]
    rfl

theorem c1_witness :
    mkEvent 12 taskWnoReply "bob" "Bob" cAlice1 0 ∈
      processUser 12 (-12) taskWnoReply "bob" "Bob" :=
  (c1_candidate_retention "bob" "Bob" 12 (-12) taskWnoReply cAlice1 0
      (by decide)).mpr ⟨by decide, Or.inl (by decide)⟩

theorem filterMap_flatMap_comm {α β γ : Type} (l : List α) (g : α → List β)
    (f : β → Option γ) :
    (l.flatMap g).filterMap f = l.flatMap fun a => (g a).filterMap f := by
  induction l with
  | nil => rfl
  | cons a rest ih =>
    simp only [List.flatMap_cons, List.filterMap_append, ih]

theorem filterMap_map_const {α β γ : Type} (l : List α) (b : β)
    (f : β → Option γ) :
    ((l.map fun _ => b).filterMap f) =
      match f b with
      | none => []
      | some v => l.map fun _ => v := by
  cases hfb : f b with
  | none =>
    induction l with
    | nil => rfl
    | cons a r ih => simp only [List.map_cons, List.filterMap_cons, hfb, ih]
  | some v =>
    induction l with
    | nil => rfl
    | cons a r ih => simp only [List.map_cons, List.filterMap_cons, hfb, ih]

/-- The candidate entries a single comment contributes to
`mentions_to_user` for monitored user `u` (assuming `u` is not its author):
one per extracted mention of `u`, at the comment's parsed timestamp. -/
def candidatesOf (u : String) (c : Comment) : List (Comment × Int) :=
  match c.createdAt with
  | none => []
  | some t => (mentionHits u c).map fun _ => (c, t)

theorem scanUser_of_no_author (u : String) (l : List Comment)
    (h : ∀ c ∈ l, c.authorGid ≠ some u) :
    scanUser u l = (l.flatMap (candidatesOf u), none) := by
  induction l with
  | nil => rfl
  | cons c rest ih =>
    have hc := h c (List.mem_cons_self c rest)
    have hrest := ih fun d hd => h d (List.mem_cons_of_mem c hd)
    cases hct : c.createdAt with
    | none => simp [scanUser, hrest, candidatesOf, hct]
    | some t => simp [scanUser, hrest, candidatesOf, hct, hc]

/-- Claim C6 fails on the code: on a timeline where Bob never posts, a
single in-window comment whose decorated form references Bob twice yields
TWO MentionEvents for Bob (the source appends one candidate per extracted
mention link), so "exactly one event per mentioning comment" is violated. -/
theorem c6_counterexample :
    (taskDup.comments.all fun c => !(c.authorGid == some "bob")) = true ∧
    mentionHits "bob" cDup ≠ [] ∧
    ((get_unanswered_mentions resolveBob ["Bob"] [taskDup] 1 24).filter
        fun e => e.mentionStoryGid == "s1").length = 2 ∧
    ((get_unanswered_mentions resolveBob ["Bob"] [taskDup] 1 24).filter
        fun e => e.mentionStoryGid == "s1").length ≠ 1 := by
  decide

/-- Claim C6 amended: when the monitored identity authors no comment on the
timeline, the walk's output lists, in timeline order, one MentionEvent per
decorated reference to that identity inside each comment that has a parsed
timestamp within the lookback window — so a comment mentioning the identity
exactly once contributes exactly one event, and a comment embedding k
references to the identity contributes k events. -/
theorem c6_per_reference (u uname : String) (now since : Int) (task : Task)
    (h : ∀ c ∈ task.comments, c.authorGid ≠ some u) :
    processUser now since task u uname =
      task.comments.flatMap fun c =>
        match c.createdAt with
        | none => []
        | some t =>
          if since ≤ t then
            (mentionHits u c).map fun _ => mkEvent now task u uname c t
          else [] := by
  have hs := scanUser_of_no_author u task.comments h
  show ((scanUser u task.comments).1.filterMap fun p =>
      if p.2 < since then none
      else if answeredAfter (scanUser u task.comments).2 p.2 then none
      else some (mkEvent now task u uname p.1 p.2)) = _
  rw [hs]
  show ((task.comments.flatMap (candidatesOf u)).filterMap fun p =>
      if p.2 < since then none
      else if answeredAfter none p.2 then none
      else some (mkEvent now task u uname p.1 p.2)) = _
  rw [filterMap_flatMap_comm]
  refine congrArg task.comments.flatMap (funext fun c => ?_)
  cases hct : c.createdAt with
  | none =>
    show ((candidatesOf u c).filterMap fun p =>
        if p.2 < since then none
        else if answeredAfter none p.2 then none
        else some (mkEvent now task u uname p.1 p.2)) = []
    simp [candidatesOf, hct]
  | some t =>
    show ((candidatesOf u c).filterMap fun p =>
        if p.2 < since then none
        else if answeredAfter none p.2 then none
        else some (mkEvent now task u uname p.1 p.2)) = _
    unfold candidatesOf
    rw [hct]
    show (((mentionHits u c).map fun _ => (c, t)).filterMap fun p =>
        if p.2 < since then none
        else if answeredAfter none p.2 then none
        else some (mkEvent now task u uname p.1 p.2)) = _
    rw [filterMap_map_const]
    by_cases hw : t < since
    · simp [answeredAfter, hw, not_le.mpr hw]
    · simp [answeredAfter, hw, le_of_not_lt hw]

theorem c6_witness :
    processUser 12 (-12) taskWnoReply "bob" "Bob" =
      taskWnoReply.comments.flatMap fun c =>
        match c.createdAt with
        | none => []
        | some t =>
          if (-12 : Int) ≤ t then
            (mentionHits "bob" c).map fun _ => mkEvent 12 taskWnoReply "bob" "Bob" c t
          else [] :=
  c6_per_reference "bob" "Bob" 12 (-12) taskWnoReply (by decide)

end DailyBrief
